import Mathlib

/-!
# card-manager-service: a verification development

A shallow embedding of the three packages of the service

* `generate` (card and account number generation),
* `storage`  (the encrypted card store over a `cards` table),
* `http`     (request parsing, the insertion loop, the ledger call),

followed by theorems about them.

Conventions.

* A Go `string` is a Lean `String`; every string the generator handles is
  ASCII, so the byte `s[i]` is the code of the `i`-th character.
* Go `byte` arithmetic is arithmetic on `Nat` modulo `256`.
* Randomness, the database answer and the ledger answer are explicit inputs.
* An `error` is `Option String`: `none` is `nil`, `some m` an error whose
  `Error()` is `m`.
-/

namespace CardManager

/-! ## Package `generate` -/

namespace generate

/-- The bytes of a Go string (ASCII strings: one byte per character). -/
def bytes (s : String) : List Nat := s.data.map Char.toNat

/-- Go `a - b` on `byte` operands. -/
def byteSub (a b : Nat) : Nat := (a % 256 + 256 - b % 256) % 256

/-- Go `2 * x` on a `byte` operand. -/
def byteDouble (x : Nat) : Nat := (2 * (x % 256)) % 256

/-- The body of the first loop of `calculateLuhnCheckDigit`:
`digit := 2 * (number[i] - '0'); if digit > 9 { digit -= 9 }`. -/
def doubledDigit (b : Nat) : Nat :=
  let digit := byteDouble (byteSub b 48)
  if digit > 9 then byteSub digit 9 else digit

/-- The loop `for i := start; i >= 0; i -= 2 { sum += int(f(number[i])) }`.
The counter is `k = i + 1`, so `k = 0` is the exit `i < 0`; from `k = 1`
(`i = 0`) the next index is `-2`, which exits as well. -/
def strideLoop (f : Nat → Nat) (number : List Nat) : Nat → Nat → Nat
  | 0, sum => sum
  | 1, sum => sum + f (number.getD 0 0)
  | k + 2, sum => strideLoop f number k (sum + f (number.getD (k + 1) 0))

/-- The value `(10 - (sum % 10)) % 10` that `calculateLuhnCheckDigit`
passes to `strconv.Itoa`. -/
def luhnCheckValue (number : String) : Nat :=
  let b := bytes number
  let sum := strideLoop doubledDigit b b.length 0
  let sum := strideLoop (fun x => byteSub x 48) b (b.length - 1) sum
  (10 - (sum % 10)) % 10

/-- Go `calculateLuhnCheckDigit`. -/
def calculateLuhnCheckDigit (number : String) : String :=
  Nat.repr (luhnCheckValue number)

/-- Go `fmt.Sprintf("%09d", n)` for `n ≥ 0`: the decimal representation,
padded on the left with zeros to width nine. -/
def sprintf09d (n : Nat) : String :=
  let s := Nat.repr n
  String.mk (List.replicate (9 - s.length) '0') ++ s

/-- Go `CardNumber`, as a function of the value of `rand.Intn(1000000000)`. -/
def CardNumber (randNumber : Nat) : String :=
  let number := "777777" ++ sprintf09d randNumber
  number ++ calculateLuhnCheckDigit number

/-- The loop of `AccountNumber`: `digits[i] = byte(rand.Intn(10) + '0')` for
`i = 0, ..., 19`; `draw i` is the value of the `i`-th call of `rand.Intn(10)`. -/
def fillDigits (draw : Nat → Nat) : Nat → Nat → List Nat → List Nat
  | 0, _, digits => digits
  | fuel + 1, i, digits =>
    if i < 20 then fillDigits draw fuel (i + 1) (digits.set i ((draw i + 48) % 256))
    else digits

/-- Go `string(digits)` for a slice of ASCII bytes. -/
def stringOfBytes (digits : List Nat) : String := String.mk (digits.map Char.ofNat)

/-- Go `AccountNumber`, as a function of the twenty draws. -/
def AccountNumber (draw : Nat → Nat) : String :=
  stringOfBytes (fillDigits draw 20 0 (List.replicate 20 0))

/-! ### The Luhn validation, as the specification words it -/

/-- The Luhn total of a digit sequence read right to left: `dbl = false` leaves
the digit as is, `dbl = true` doubles it and subtracts nine from a result
above nine; the two alternate. -/
def luhnTotal : List Nat → Bool → Nat
  | [], _ => 0
  | d :: ds, false => d + luhnTotal ds true
  | d :: ds, true => (if 2 * d > 9 then 2 * d - 9 else 2 * d) + luhnTotal ds false

/-- The numeric value of a decimal digit character. -/
def digitValue (c : Char) : Nat := c.toNat - 48

/-- Standard Luhn validation of a string of decimal digits: walking right to
left from the check digit, the total is divisible by ten. -/
def luhnValid (s : String) : Bool :=
  s.data.all Char.isDigit && luhnTotal (s.data.reverse.map digitValue) false % 10 == 0

/-- The sum of `f` over the entries at positions `0, 2, 4, ...` of a list
(used to relate the two index loops to `luhnTotal`). -/
def altSum (f : Nat → Nat) : List Nat → Nat
  | [] => 0
  | [x] => f x
  | x :: _ :: rest => f x + altSum f rest

/-- The doubling rule of the Luhn validation on a digit value. -/
def luhnDouble (d : Nat) : Nat := if 2 * d > 9 then 2 * d - 9 else 2 * d

end generate

/-! ## Package `models` -/

namespace models

/-- A `uuid.UUID`, read as a 128-bit number; `uuid.Nil` is `0`. -/
abbrev UUID := Nat

/-- Go `models.Card`. `Balance` is a `uint64`. -/
structure Card where
  ID : UUID
  UserID : UUID
  AccountID : UUID
  CardNumber : String
  PhoneNumber : String
  Currency : String
  Balance : Nat
  deriving DecidableEq, Repr

/-- The zero value of `models.Card`. -/
def Card.zero : Card := ⟨0, 0, 0, "", "", "", 0⟩

end models

/-! ## Package `storage` -/

namespace storage

open models

/-- Go `storage.UniqueViolationCode`. -/
def UniqueViolationCode : String := "23505"

/-- An error value returned by the connection pool: either a `*pgconn.PgError`
with its SQLSTATE `Code`, or any other error; `message` is what `Error()`
returns. -/
inductive DbError where
  | pgError (code : String) (message : String)
  | other (message : String)
  deriving DecidableEq, Repr

/-- Go `err.Error()`. -/
def DbError.Error : DbError → String
  | .pgError _ message => message
  | .other message => message

/-- The test `pgErr, ok := err.(*pgconn.PgError); ok && pgErr.Code == UniqueViolationCode`. -/
def DbError.isUniqueViolation : DbError → Bool
  | .pgError code _ => code == UniqueViolationCode
  | .other _ => false

/-- A row of the table `cards`, with the six columns the two queries name;
`β` is the type of a ciphertext. -/
structure Row (β : Type) where
  card_id : UUID
  account_id : UUID
  user_id : UUID
  card_number : β
  phone_number : β
  created_at : Nat
  deriving DecidableEq, Repr

/-- The state of the database: the rows of `cards` in insertion order, and the
time the column `created_at` takes at the next insertion. -/
structure Db (β : Type) where
  rows : List (Row β)
  now : Nat
  deriving DecidableEq, Repr

/-- How a read can fail: in `Query`, in `rows.Scan`, or in `rows.Err`. -/
inductive ReadFault where
  | query (e : DbError)
  | scan (e : DbError)
  | rows (e : DbError)
  deriving DecidableEq, Repr

/-- Go `PostgresCards` with what it reaches outside the repository:
`security.Encrypt` and `security.Decrypt` (package `mmm-bank/infra/security`),
the `AES_KEY`, and the answers of the database engine. `reject db row` is the
error of the `INSERT` of `row` (a constraint of the table declaration, or a
failure of the connection), `none` when the row is accepted; `readFault` is
the error of the `SELECT`. -/
structure PostgresCards (β : Type) where
  Encrypt : String → String → β
  Decrypt : β → String → String
  key : String
  reject : Db β → Row β → Option DbError
  readFault : Db β → Option ReadFault

/-- The row written by the `INSERT` of `AddCard`: `currency` and `balance` are
not among the columns. -/
def rowOf {β : Type} (p : PostgresCards β) (db : Db β) (card : Card) : Row β :=
  { card_id := card.ID
    account_id := card.AccountID
    user_id := card.UserID
    card_number := p.Encrypt card.CardNumber p.key
    phone_number := p.Encrypt card.PhoneNumber p.key
    created_at := db.now }

/-- The statement `p.db.Exec(ctx, INSERT ...)`: a rejected row leaves the table
as it is, an accepted one is appended. -/
def Exec {β : Type} (p : PostgresCards β) (db : Db β) (row : Row β) : Option DbError × Db β :=
  match p.reject db row with
  | some e => (some e, { db with now := db.now + 1 })
  | none => (none, { rows := db.rows ++ [row], now := db.now + 1 })

/-- The error `AddCard` returns for a database error: `errors.New("23505")`
for a unique violation, `fmt.Errorf("failed to insert card: %v", err)`
otherwise. -/
def insertError (err : DbError) : String :=
  if err.isUniqueViolation then UniqueViolationCode
  else "failed to insert card: " ++ err.Error

/-- Go `PostgresCards.AddCard`. -/
def AddCard {β : Type} (p : PostgresCards β) (db : Db β) (card : Card) : Option String × Db β :=
  match Exec p db (rowOf p db card) with
  | (some err, db') => (some (insertError err), db')
  | (none, db') => (none, db')

/-- The loop body of `GetAllCards`: `rows.Scan` into a zero `models.Card`, then
the two `security.Decrypt` calls. -/
def scanRow {β : Type} (p : PostgresCards β) (row : Row β) : Card :=
  { Card.zero with
    ID := row.card_id
    AccountID := row.account_id
    UserID := row.user_id
    CardNumber := p.Decrypt row.card_number p.key
    PhoneNumber := p.Decrypt row.phone_number p.key }

/-- The rows selected by
`SELECT ... FROM cards WHERE user_id = $1 ORDER BY created_at DESC`. -/
def selectRows {β : Type} (db : Db β) (userID : UUID) : List (Row β) :=
  (db.rows.filter (fun r => r.user_id == userID)).insertionSort
    (fun a b => a.created_at ≥ b.created_at)

/-- Go `PostgresCards.GetAllCards`. -/
def GetAllCards {β : Type} (p : PostgresCards β) (db : Db β) (userID : UUID) :
    Except String (List Card) :=
  match p.readFault db with
  | some (.query e) => .error ("unable to fetch cards: " ++ e.Error)
  | some (.scan e) => .error e.Error
  | some (.rows e) => .error e.Error
  | none => .ok ((selectRows db userID).map (scanRow p))

/-- Go interface `storage.Storage`, over a store with states `σ`. -/
structure Storage (σ : Type) where
  AddCard : σ → Card → Option String × σ
  GetAllCards : σ → UUID → Except String (List Card)

/-- The assertion `var _ Storage = PostgresCards{}`. -/
def PostgresCards.toStorage {β : Type} (p : PostgresCards β) : Storage (Db β) :=
  { AddCard := storage.AddCard p, GetAllCards := storage.GetAllCards p }

/-- A test double of `Storage`: the state is the list of answers `AddCard` has
still to give (`nil` once the list is used up); no card is stored. -/
def scripted : Storage (List (Option String)) :=
  { AddCard := fun answers _ => (answers.headD none, answers.tail)
    GetAllCards := fun _ _ => .ok [] }

end storage

/-! ## Package `http` -/

namespace http

open models storage

/-- Go `http.UniqueViolationCode`. -/
def UniqueViolationCode : String := "23505"

/-- Go `AccountRequest`: the embedded card and the account number. -/
structure AccountRequest where
  Card : Card
  AccountNumber : String
  deriving DecidableEq, Repr

/-- A JSON object the decoder accepts, by the keys the service knows; `none`
is a key that is absent (or `null`), which leaves the field as it was. -/
structure Body where
  card_id : Option UUID
  user_id : Option UUID
  account_id : Option UUID
  card_number : Option String
  phone_number : Option String
  currency : Option String
  balance : Option Nat
  account_number : Option String
  deriving DecidableEq, Repr

/-- What a handler reads of an `*http.Request`: the `user_id` the middleware put
in the context, and the body, `none` when `Decode` returns an error. -/
structure Request where
  user_id : UUID
  body : Option Body
  deriving DecidableEq, Repr

/-- The values the random sources give during one request: the two calls of
`uuid.New()`, `rand.Intn(1000000000)` in `generate.CardNumber`, and the
calls of `rand.Intn(10)` in `generate.AccountNumber`. -/
structure Random where
  uuid1 : UUID
  uuid2 : UUID
  intn : Nat
  draws : Nat → Nat

/-- The call `json.NewDecoder(r.Body).Decode(&card)` on an accepted body: the
keys present overwrite the fields, `account_number` is not a field of
`models.Card`. -/
def decodeInto (b : Body) (card : Card) : Card :=
  { ID := b.card_id.getD card.ID
    UserID := b.user_id.getD card.UserID
    AccountID := b.account_id.getD card.AccountID
    CardNumber := b.card_number.getD card.CardNumber
    PhoneNumber := b.phone_number.getD card.PhoneNumber
    Currency := b.currency.getD card.Currency
    Balance := b.balance.getD card.Balance }

/-- The rule `validate:"required"` on the seven fields of `models.Card`: a
field passes when it is not the zero value of its type. -/
def validCard (c : Card) : Bool :=
  c.ID != 0 && c.UserID != 0 && c.AccountID != 0 && c.CardNumber != "" &&
    c.PhoneNumber != "" && c.Currency != "" && c.Balance != 0

/-- The call `validator.New().Struct(req)` on an `AccountRequest`: the embedded
card and `AccountNumber`, all `required`. -/
def validAccountRequest (req : AccountRequest) : Bool :=
  validCard req.Card && req.AccountNumber != ""

/-- Go `parseAccountRequest`. -/
def parseAccountRequest (rnd : Random) (r : Request) : AccountRequest × String :=
  let userID := r.user_id
  match r.body with
  | none => (⟨Card.zero, ""⟩, "Failed to parse JSON request")
  | some b =>
    let card := decodeInto b Card.zero
    let card := { card with ID := rnd.uuid1 }
    let card := { card with UserID := userID }
    let card := { card with AccountID := rnd.uuid2 }
    let card := { card with CardNumber := generate.CardNumber rnd.intn }
    let req : AccountRequest := ⟨card, generate.AccountNumber rnd.draws⟩
    if validAccountRequest req then (req, "") else (req, "Missing fields")

/-- Go `parseCardRequest`. -/
def parseCardRequest (rnd : Random) (r : Request) : Card × String :=
  let userID := r.user_id
  match r.body with
  | none => (Card.zero, "Failed to parse JSON request")
  | some b =>
    let card := decodeInto b Card.zero
    let card := { card with ID := rnd.uuid1 }
    let card := { card with UserID := userID }
    let card := { card with AccountID := rnd.uuid2 }
    let card := { card with CardNumber := generate.CardNumber rnd.intn }
    if validCard card then (card, "") else (card, "Missing fields")

/-- A request to the transaction service. -/
inductive LedgerCall where
  | createAccount (data : AccountRequest)
  | linkCard (data : Card)
  deriving DecidableEq, Repr

/-- How a request to the transaction service ends: `http.NewRequest` fails,
`client.Do` fails, or a response with a status code arrives. -/
inductive LedgerOutcome where
  | requestError (message : String)
  | transportError (message : String)
  | status (code : Nat)
  deriving DecidableEq, Repr

/-- What a handler does to the world, in order. -/
inductive Event where
  | addCard (card : Card)
  | ledger (call : LedgerCall)
  | log (message : String)
  | httpError (message : String) (code : Nat)
  | writeHeader (code : Nat)
  deriving DecidableEq, Repr

/-- The dependencies of a `CardService`: the store and the transaction
service. -/
structure CardService (σ : Type) where
  db : Storage σ
  ledger : LedgerCall → LedgerOutcome

/-- The common body of `createAccount` and `linkCard`: the error returned and
the events, given the request sent and the name used in the log lines. -/
def callLedger {σ : Type} (c : CardService σ) (call : LedgerCall) (prepare failed : String) :
    Option String × List Event :=
  match c.ledger call with
  | .requestError message => (some message, [.log prepare])
  | .transportError message => (some message, [.ledger call, .log failed])
  | .status code =>
    if code != 201 then
      (some ("transaction service returned unexpected status: " ++ toString code),
        [.ledger call, .log failed])
    else (none, [.ledger call])

/-- Go `CardService.createAccount`. -/
def createAccount {σ : Type} (c : CardService σ) (data : AccountRequest) :
    Option String × List Event :=
  callLedger c (.createAccount data) "Failed to prepare account creation HTTP request"
    "Failed to create account in transaction service"

/-- Go `CardService.linkCard`. -/
def linkCard {σ : Type} (c : CardService σ) (data : Card) : Option String × List Event :=
  callLedger c (.linkCard data) "Failed to prepare card linking HTTP request"
    "Failed to link card in transaction service"

/-- The loop
`for err := c.db.AddCard(card); err != nil; err = c.db.AddCard(card) { ... }`
of both create handlers. The fuel bounds the number of calls of `AddCard`;
the result is `none` when it runs out, else the fatal error of the loop body
(`none` when the loop ends with `err == nil`), the store and the events. -/
def insertLoop {σ : Type} (c : CardService σ) (card : Card) :
    Nat → σ → List Event → Option (Option String × σ × List Event)
  | 0, _, _ => none
  | fuel + 1, st, trace =>
    match c.db.AddCard st card with
    | (none, st') => some (none, st', trace ++ [.addCard card])
    | (some err, st') =>
      if err != UniqueViolationCode then
        some (some err, st', trace ++ [.addCard card, .log "Failed to add card",
          .httpError "Failed to add card" 500])
      else insertLoop c card fuel st' (trace ++ [.addCard card])

/-- What a handler leaves behind: the store and the events. -/
structure Outcome (σ : Type) where
  store : σ
  trace : List Event

/-- Go `CardService.postAddCardHandler`. -/
def postAddCardHandler {σ : Type} (c : CardService σ) (rnd : Random) (fuel : Nat) (st : σ)
    (r : Request) : Option (Outcome σ) :=
  match parseAccountRequest rnd r with
  | (req, Err) =>
    if Err != "" then some ⟨st, [.httpError Err 400]⟩
    else
      match insertLoop c req.Card fuel st [] with
      | none => none
      | some (some _, st', trace) => some ⟨st', trace⟩
      | some (none, st', trace) =>
        match createAccount c req with
        | (some _, events) =>
          some ⟨st', trace ++ events ++ [.httpError "Failed to create account" 500]⟩
        | (none, events) => some ⟨st', trace ++ events ++ [.writeHeader 201]⟩

/-- Go `CardService.postAddLinkedCardHandler`. -/
def postAddLinkedCardHandler {σ : Type} (c : CardService σ) (rnd : Random) (fuel : Nat) (st : σ)
    (r : Request) : Option (Outcome σ) :=
  match parseCardRequest rnd r with
  | (card, Err) =>
    if Err != "" then some ⟨st, [.httpError Err 400]⟩
    else
      match insertLoop c card fuel st [] with
      | none => none
      | some (some _, st', trace) => some ⟨st', trace⟩
      | some (none, st', trace) =>
        match linkCard c card with
        | (some _, events) =>
          some ⟨st', trace ++ events ++ [.httpError "Failed to link card" 500]⟩
        | (none, events) => some ⟨st', trace ++ events ++ [.writeHeader 201]⟩

/-- An HTTP response: status code and body. -/
structure Response where
  status : Nat
  body : String
  deriving DecidableEq, Repr

/-- The response a trace produces on the `http.ResponseWriter`:
`http.Error(w, message, code)` writes the status `code` and the body
`message` followed by a newline, `w.WriteHeader(code)` the status alone.
Every path of the handlers writes at most once; a handler that writes nothing
answers `200` with an empty body. -/
def responseOf : List Event → Response
  | [] => ⟨200, ""⟩
  | .httpError message code :: _ => ⟨code, message ++ "\n"⟩
  | .writeHeader code :: _ => ⟨code, ""⟩
  | _ :: rest => responseOf rest

/-- The cards a trace passed to `Storage.AddCard`, in order. -/
def addCardCalls : List Event → List Card
  | [] => []
  | .addCard card :: rest => card :: addCardCalls rest
  | _ :: rest => addCardCalls rest

/-- The requests a trace sent to the transaction service, in order. -/
def ledgerCalls : List Event → List LedgerCall
  | [] => []
  | .ledger call :: rest => call :: ledgerCalls rest
  | _ :: rest => ledgerCalls rest

/-- The error responses a trace wrote with `http.Error`. -/
def errorResponses : List Event → List (String × Nat)
  | [] => []
  | .httpError message code :: rest => (message, code) :: errorResponses rest
  | _ :: rest => errorResponses rest

/-- The store after `n` calls of `AddCard` with the same card. -/
def storeAfter {σ : Type} (db : Storage σ) (card : Card) (st : σ) : Nat → σ
  | 0 => st
  | n + 1 => (db.AddCard (storeAfter db card st n) card).2

/-- The answer of the call number `n` (counted from zero) of `AddCard` in a run
of calls with the same card. -/
def answerAt {σ : Type} (db : Storage σ) (card : Card) (st : σ) (n : Nat) : Option String :=
  (db.AddCard (storeAfter db card st n) card).1

end http

/-! ## Concrete inputs -/

namespace sample

open models storage http

/-- The values of the random sources in the examples. -/
def random : Random := ⟨1, 2, 123456789, fun i => i % 10⟩

/-- The body `{"phone_number":"+10000000000","currency":"USD","balance":100}`. -/
def body : Body :=
  { card_id := none, user_id := none, account_id := none, card_number := none
    phone_number := some "+10000000000", currency := some "USD", balance := some 100
    account_number := none }

/-- A body that also tries to set every server-generated field. -/
def forgedBody : Body :=
  { card_id := some 66, user_id := some 67, account_id := some 68
    card_number := some "4111111111111111"
    phone_number := some "+10000000000", currency := some "USD", balance := some 100
    account_number := some "00000000000000000000" }

/-- The sample body without the key `phone_number`. -/
def bodyNoPhone : Body := { body with phone_number := none }

/-- The sample body with `"balance":0`. -/
def bodyZeroBalance : Body := { body with balance := some 0 }

/-- A service over the scripted store whose transaction service answers `201`. -/
def service : CardService (List (Option String)) :=
  { db := scripted, ledger := fun _ => .status 201 }

/-- A store for the examples: the cipher reverses the plaintext, the table
rejects a `card_id` it already holds with SQLSTATE `23505` (the data model
has `card_id` globally unique, enforced by the store), and reads do not
fail. -/
def postgres : PostgresCards String :=
  { Encrypt := fun s _ => String.mk s.data.reverse
    Decrypt := fun b _ => String.mk b.data.reverse
    key := "k"
    reject := fun db row =>
      if db.rows.any (fun r => r.card_id == row.card_id) then
        some (.pgError "23505" "ERROR: duplicate key value violates unique constraint (SQLSTATE 23505)")
      else none
    readFault := fun _ => none }

/-- The card the sample request leads to. -/
def card : Card :=
  { ID := 1, UserID := 9, AccountID := 2, CardNumber := "7777771234567891"
    PhoneNumber := "+10000000000", Currency := "USD", Balance := 100 }

/-- The empty database at time `0`. -/
def emptyDb : Db String := ⟨[], 0⟩

/-- The database after the sample card was inserted into the empty one. -/
def dbWithCard : Db String := ⟨[rowOf postgres emptyDb card], 1⟩

end sample

end CardManager

namespace CardManager

namespace generate

/-! ### Proof helpers for the generator -/

theorem take_two_reverse (l : List Nat) (k : Nat) (h : k + 2 ≤ l.length) :
    (l.take (k + 2)).reverse = l.getD (k + 1) 0 :: l.getD k 0 :: (l.take k).reverse := by
  have h1 : k + 1 < l.length := by omega
  have h0 : k < l.length := by omega
  rw [List.take_succ, List.take_succ]
  simp [List.getD, List.getElem?_eq_getElem h1, List.getElem?_eq_getElem h0]

theorem take_one_reverse (l : List Nat) (h : 1 ≤ l.length) :
    (l.take 1).reverse = [l.getD 0 0] := by
  cases l with
  | nil => simp at h
  | cons a t => simp

theorem strideLoop_eq (f : Nat → Nat) (number : List Nat) :
    ∀ (k s : Nat), k ≤ number.length →
      strideLoop f number k s = s + altSum f ((number.take k).reverse) := by
  intro k
  induction k using Nat.strong_induction_on with
  | _ k ih =>
    intro s hk
    match k, ih, hk with
    | 0, _, _ => simp [strideLoop, altSum]
    | 1, _, hk => simp [strideLoop, take_one_reverse number hk, altSum]
    | k + 2, ih, hk =>
      rw [strideLoop, ih k (by omega) _ (by omega), take_two_reverse number k hk, altSum]
      omega

theorem altSum_cons (f : Nat → Nat) (x : Nat) (t : List Nat) :
    altSum f (x :: t) = f x + altSum f t.tail := by
  cases t <;> simp [altSum]

theorem luhnTotal_eq (l : List Nat) :
    luhnTotal l true = altSum luhnDouble l + altSum id l.tail ∧
    luhnTotal l false = altSum id l + altSum luhnDouble l.tail := by
  induction l with
  | nil => simp [luhnTotal, altSum]
  | cons x t ih =>
    obtain ⟨iht, ihf⟩ := ih
    constructor
    · rw [luhnTotal, ihf, altSum_cons luhnDouble, List.tail_cons]
      simp only [luhnDouble]
      omega
    · rw [luhnTotal, iht, altSum_cons id, List.tail_cons]
      simp only [id]
      omega

theorem altSum_map_congr {α : Type} (f g : Nat → Nat) (a b : α → Nat) :
    ∀ (l : List α), (∀ c ∈ l, f (a c) = g (b c)) → altSum f (l.map a) = altSum g (l.map b)
  | [], _ => by simp [altSum]
  | [x], h => by simpa [altSum] using h x (by simp)
  | x :: y :: rest, h => by
    have hx := h x (by simp)
    have hr := altSum_map_congr f g a b rest (fun c hc => h c (by simp [hc]))
    simp only [List.map_cons, altSum, hx, hr]

theorem isDigit_bounds (c : Char) (h : c.isDigit = true) : 48 ≤ c.toNat ∧ c.toNat ≤ 57 := by
  simp only [Char.isDigit, Bool.and_eq_true, decide_eq_true_eq] at h
  obtain ⟨h1, h2⟩ := h
  have h1' : (48 : UInt32).toNat ≤ c.val.toNat := h1
  have h2' : c.val.toNat ≤ (57 : UInt32).toNat := h2
  exact ⟨h1', h2'⟩

theorem doubledDigit_digit (c : Char) (h : c.isDigit = true) :
    doubledDigit c.toNat = luhnDouble (digitValue c) := by
  obtain ⟨h1, h2⟩ := isDigit_bounds c h
  simp only [doubledDigit, byteDouble, byteSub, luhnDouble, digitValue]
  split <;> split <;> omega

theorem byteSub_digit (c : Char) (h : c.isDigit = true) :
    byteSub c.toNat 48 = id (digitValue c) := by
  obtain ⟨h1, h2⟩ := isDigit_bounds c h
  simp only [byteSub, digitValue, id]
  omega

/-- The sum computed by the two loops of `calculateLuhnCheckDigit` on a string
of decimal digits is the Luhn total of those digits, the doubling starting at
the rightmost one. -/
theorem loops_eq_luhnTotal (cs : List Char) (h : ∀ c ∈ cs, c.isDigit = true) :
    strideLoop (fun x => byteSub x 48) (cs.map Char.toNat) ((cs.map Char.toNat).length - 1)
        (strideLoop doubledDigit (cs.map Char.toNat) (cs.map Char.toNat).length 0)
      = luhnTotal (cs.reverse.map digitValue) true := by
  rw [strideLoop_eq _ _ _ _ (le_refl _), strideLoop_eq _ _ _ _ (Nat.sub_le _ _)]
  rw [List.take_length, ← List.dropLast_eq_take, ← List.tail_reverse, (luhnTotal_eq _).1]
  rw [← List.map_reverse, ← List.map_tail, ← List.map_tail]
  have hd : ∀ c ∈ cs.reverse, c.isDigit = true := fun c hc => h c (List.mem_reverse.mp hc)
  have ht : ∀ c ∈ cs.reverse.tail, c.isDigit = true := fun c hc => hd c (List.mem_of_mem_tail hc)
  rw [altSum_map_congr doubledDigit luhnDouble Char.toNat digitValue _
    (fun c hc => doubledDigit_digit c (hd c hc))]
  rw [altSum_map_congr (fun x => byteSub x 48) id Char.toNat digitValue _
    (fun c hc => byteSub_digit c (ht c hc))]
  omega

theorem digitChar_isDigit (m : Nat) (h : m < 10) : (Nat.digitChar m).isDigit = true := by
  interval_cases m <;> rfl

theorem digitValue_digitChar (m : Nat) (h : m < 10) : digitValue (Nat.digitChar m) = m := by
  interval_cases m <;> rfl

theorem repr_small (m : Nat) (h : m < 10) : (Nat.repr m).data = [Nat.digitChar m] := by
  interval_cases m <;> rfl

theorem toDigitsCore_isDigit (fuel : Nat) :
    ∀ (n : Nat) (acc : List Char), (∀ c ∈ acc, c.isDigit = true) →
      ∀ c ∈ Nat.toDigitsCore 10 fuel n acc, c.isDigit = true := by
  induction fuel with
  | zero => intro n acc hacc c hc; simpa [Nat.toDigitsCore] using hacc c (by simpa [Nat.toDigitsCore] using hc)
  | succ fuel ih =>
    intro n acc hacc c hc
    have hacc2 : ∀ c ∈ Nat.digitChar (n % 10) :: acc, c.isDigit = true := by
      intro d hd
      rcases List.mem_cons.mp hd with rfl | hd
      · exact digitChar_isDigit _ (Nat.mod_lt _ (by decide))
      · exact hacc d hd
    simp only [Nat.toDigitsCore] at hc
    split at hc
    · exact hacc2 c hc
    · exact ih _ _ hacc2 c hc

theorem repr_isDigit (n : Nat) : ∀ c ∈ (Nat.repr n).data, c.isDigit = true := by
  intro c hc
  exact toDigitsCore_isDigit _ _ [] (by simp) c (by simpa [Nat.repr, Nat.toDigits] using hc)

theorem sprintf09d_length (r : Nat) (h : r < 1000000000) : (sprintf09d r).data.length = 9 := by
  have hl : (Nat.repr r).length ≤ 9 := Nat.repr_length r 9 (by decide) (by simpa using h)
  simp only [sprintf09d, String.data_append, List.length_append, List.length_replicate]
  have : (Nat.repr r).data.length = (Nat.repr r).length := rfl
  omega

theorem sprintf09d_isDigit (r : Nat) : ∀ c ∈ (sprintf09d r).data, c.isDigit = true := by
  intro c hc
  simp only [sprintf09d, String.data_append, List.mem_append] at hc
  rcases hc with hc | hc
  · obtain ⟨_, rfl⟩ := List.mem_replicate.mp hc
    rfl
  · exact repr_isDigit r c hc

theorem number_isDigit (r : Nat) : ∀ c ∈ ("777777" ++ sprintf09d r).data, c.isDigit = true := by
  intro c hc
  rw [String.data_append, List.mem_append] at hc
  rcases hc with hc | hc
  · have h7 : ∀ d ∈ "777777".data, d.isDigit = true := by decide
    exact h7 c hc
  · exact sprintf09d_isDigit r c hc

theorem luhnCheckValue_lt (number : String) : luhnCheckValue number < 10 := by
  simp only [luhnCheckValue]
  omega

/-- Appending the computed check digit to any string of decimal digits gives a
string that passes the Luhn validation. -/
theorem luhnValid_append_check (number : String) (h : ∀ c ∈ number.data, c.isDigit = true) :
    luhnValid (number ++ calculateLuhnCheckDigit number) = true := by
  have hv := luhnCheckValue_lt number
  have hchk : (calculateLuhnCheckDigit number).data = [Nat.digitChar (luhnCheckValue number)] :=
    repr_small _ hv
  have hsum := loops_eq_luhnTotal number.data h
  simp only [luhnValid, String.data_append, hchk, Bool.and_eq_true, List.all_eq_true,
    beq_iff_eq]
  constructor
  · intro c hc
    rcases List.mem_append.mp hc with hc | hc
    · exact h c hc
    · rw [List.mem_singleton.mp hc]
      exact digitChar_isDigit _ hv
  · rw [List.reverse_append, List.reverse_singleton, List.singleton_append, List.map_cons,
      luhnTotal, digitValue_digitChar _ hv, ← hsum]
    simp only [luhnCheckValue, bytes]
    omega

theorem length_eq_data_length (s : String) : s.length = s.data.length := rfl

/-- C1: for every `r` below `1000000000`, the string `CardNumber` builds from
`r` has exactly sixteen characters, all of them decimal digits, begins with
`777777`, and passes the Luhn validation (right to left, the check digit as
is, every second digit doubled, nine subtracted from a doubled value above
nine, the total divisible by ten). -/
theorem CardNumber_is_luhn_valid (r : Nat) (h : r < 1000000000) :
    (CardNumber r).length = 16 ∧
    (∀ c ∈ (CardNumber r).data, c.isDigit = true) ∧
    "777777".data <+: (CardNumber r).data ∧
    luhnValid (CardNumber r) = true := by
  have hvalid : luhnValid (CardNumber r) = true :=
    luhnValid_append_check _ (number_isDigit r)
  refine ⟨?_, ?_, ?_, hvalid⟩
  · have hchk : (calculateLuhnCheckDigit ("777777" ++ sprintf09d r)).data.length = 1 := by
      rw [calculateLuhnCheckDigit, repr_small _ (luhnCheckValue_lt _)]
      rfl
    have h9 := sprintf09d_length r h
    have h6 : "777777".data.length = 6 := rfl
    simp only [CardNumber, length_eq_data_length, String.data_append, List.length_append] at *
    omega
  · intro c hc
    simp only [luhnValid, Bool.and_eq_true, List.all_eq_true] at hvalid
    exact hvalid.1 c hc
  · simp only [CardNumber, String.data_append, List.append_assoc]
    exact List.prefix_append _ _

/-- C1, at `r = 123456789`. -/
theorem CardNumber_is_luhn_valid_witness :
    123456789 < 1000000000 ∧
    ((CardNumber 123456789).length = 16 ∧
      (∀ c ∈ (CardNumber 123456789).data, c.isDigit = true) ∧
      "777777".data <+: (CardNumber 123456789).data ∧
      luhnValid (CardNumber 123456789) = true) :=
  ⟨by decide, CardNumber_is_luhn_valid 123456789 (by decide)⟩

theorem ofNat_digit (m : Nat) (h : m < 10) : Char.ofNat ((m + 48) % 256) = Nat.digitChar m := by
  interval_cases m <;> rfl

theorem AccountNumber_data (draw : Nat → Nat) :
    (AccountNumber draw).data =
      (List.range 20).map (fun i => Char.ofNat ((draw i + 48) % 256)) := by
  simp [AccountNumber, stringOfBytes, fillDigits, List.replicate, List.range, List.range.loop]

/-- C9: for every sequence of twenty draws of `rand.Intn(10)`, each in `0..9`,
`AccountNumber` returns a string of exactly twenty characters, every one a
decimal digit, the `i`-th being the digit of the `i`-th draw. -/
theorem AccountNumber_twenty_digits (draw : Nat → Nat) (h : ∀ i, i < 20 → draw i < 10) :
    (AccountNumber draw).length = 20 ∧
    (∀ c ∈ (AccountNumber draw).data, c.isDigit = true) ∧
    (∀ i, i < 20 → (AccountNumber draw).data[i]? = some (Nat.digitChar (draw i))) := by
  have hd := AccountNumber_data draw
  have hi : ∀ i, i < 20 → (AccountNumber draw).data[i]? = some (Nat.digitChar (draw i)) := by
    intro i hi
    rw [hd, List.getElem?_map, List.getElem?_range hi, Option.map_some', ofNat_digit _ (h i hi)]
  refine ⟨?_, ?_, hi⟩
  · rw [length_eq_data_length, hd, List.length_map, List.length_range]
  · intro c hc
    obtain ⟨i, hlt, hget⟩ := List.getElem_of_mem hc
    have hlen : (AccountNumber draw).data.length = 20 := by
      rw [hd, List.length_map, List.length_range]
    have hi20 : i < 20 := by omega
    have := hi i hi20
    rw [List.getElem?_eq_getElem hlt, hget] at this
    rw [Option.some.inj this]
    exact digitChar_isDigit _ (h i hi20)

/-- C9, at the draws `0, 1, ..., 9, 0, 1, ..., 9`. -/
theorem AccountNumber_twenty_digits_witness :
    (∀ i, i < 20 → (fun i => i % 10) i < 10) ∧
    ((AccountNumber (fun i => i % 10)).length = 20 ∧
      (∀ c ∈ (AccountNumber (fun i => i % 10)).data, c.isDigit = true) ∧
      (∀ i, i < 20 →
        (AccountNumber (fun i => i % 10)).data[i]? = some (Nat.digitChar ((fun i => i % 10) i)))) :=
  ⟨fun i _ => Nat.mod_lt i (by decide),
    AccountNumber_twenty_digits (fun i => i % 10) (fun i _ => Nat.mod_lt i (by decide))⟩

end generate

end CardManager

namespace CardManager

namespace http

open models storage

/-! ### Request parsing -/

theorem decodeInto_phone_empty (b : Body) (h : b.phone_number = none ∨ b.phone_number = some "") :
    (decodeInto b Card.zero).PhoneNumber = "" := by
  rcases h with h | h <;> simp [decodeInto, h, Card.zero]

theorem decodeInto_balance_zero (b : Body) (h : b.balance = none ∨ b.balance = some 0) :
    (decodeInto b Card.zero).Balance = 0 := by
  rcases h with h | h <;> simp [decodeInto, h, Card.zero]

theorem parseAccountRequest_missing (rnd : Random) (user : UUID) (b : Body)
    (h : (decodeInto b Card.zero).PhoneNumber = "" ∨ (decodeInto b Card.zero).Balance = 0) :
    (parseAccountRequest rnd ⟨user, some b⟩).2 = "Missing fields" := by
  rcases h with h | h <;> simp [parseAccountRequest, validAccountRequest, validCard, h]

theorem parseCardRequest_missing (rnd : Random) (user : UUID) (b : Body)
    (h : (decodeInto b Card.zero).PhoneNumber = "" ∨ (decodeInto b Card.zero).Balance = 0) :
    (parseCardRequest rnd ⟨user, some b⟩).2 = "Missing fields" := by
  rcases h with h | h <;> simp [parseCardRequest, validCard, h]

theorem postAddCardHandler_missing {σ : Type} (c : CardService σ) (rnd : Random) (fuel : Nat)
    (st : σ) (r : Request) (h : (parseAccountRequest rnd r).2 = "Missing fields") :
    postAddCardHandler c rnd fuel st r = some ⟨st, [.httpError "Missing fields" 400]⟩ := by
  unfold postAddCardHandler
  generalize parseAccountRequest rnd r = res at h
  obtain ⟨req, Err⟩ := res
  simp only at h
  subst h
  simp

theorem postAddLinkedCardHandler_missing {σ : Type} (c : CardService σ) (rnd : Random)
    (fuel : Nat) (st : σ) (r : Request) (h : (parseCardRequest rnd r).2 = "Missing fields") :
    postAddLinkedCardHandler c rnd fuel st r = some ⟨st, [.httpError "Missing fields" 400]⟩ := by
  unfold postAddLinkedCardHandler
  generalize parseCardRequest rnd r = res at h
  obtain ⟨req, Err⟩ := res
  simp only at h
  subst h
  simp

/-- C4: a create request whose body decodes but has `phone_number` absent or
empty is answered, by both create handlers, with status 400 and the message
`Missing fields`; `Storage.AddCard` is not called, the transaction service is
not called, and the store is left as it was. -/
theorem missing_phone_number_is_rejected {σ : Type} (c : CardService σ) (rnd : Random)
    (fuel : Nat) (st : σ) (user : UUID) (b : Body)
    (h : b.phone_number = none ∨ b.phone_number = some "") :
    (∃ out, postAddCardHandler c rnd fuel st ⟨user, some b⟩ = some out ∧
      responseOf out.trace = ⟨400, "Missing fields\n"⟩ ∧
      addCardCalls out.trace = [] ∧ ledgerCalls out.trace = [] ∧ out.store = st) ∧
    (∃ out, postAddLinkedCardHandler c rnd fuel st ⟨user, some b⟩ = some out ∧
      responseOf out.trace = ⟨400, "Missing fields\n"⟩ ∧
      addCardCalls out.trace = [] ∧ ledgerCalls out.trace = [] ∧ out.store = st) := by
  have hp := decodeInto_phone_empty b h
  exact ⟨⟨_, postAddCardHandler_missing c rnd fuel st _
        (parseAccountRequest_missing rnd user b (Or.inl hp)), rfl, rfl, rfl, rfl⟩,
    ⟨_, postAddLinkedCardHandler_missing c rnd fuel st _
        (parseCardRequest_missing rnd user b (Or.inl hp)), rfl, rfl, rfl, rfl⟩⟩

/-- C4, at the sample body without `phone_number`. -/
theorem missing_phone_number_is_rejected_witness :
    (sample.bodyNoPhone.phone_number = none ∨ sample.bodyNoPhone.phone_number = some "") ∧
    ((∃ out, postAddCardHandler sample.service sample.random 5 [] ⟨9, some sample.bodyNoPhone⟩
        = some out ∧
      responseOf out.trace = ⟨400, "Missing fields\n"⟩ ∧
      addCardCalls out.trace = [] ∧ ledgerCalls out.trace = [] ∧ out.store = []) ∧
    (∃ out, postAddLinkedCardHandler sample.service sample.random 5 [] ⟨9, some sample.bodyNoPhone⟩
        = some out ∧
      responseOf out.trace = ⟨400, "Missing fields\n"⟩ ∧
      addCardCalls out.trace = [] ∧ ledgerCalls out.trace = [] ∧ out.store = [])) :=
  ⟨Or.inl rfl,
    missing_phone_number_is_rejected sample.service sample.random 5 [] 9 sample.bodyNoPhone
      (Or.inl rfl)⟩

/-- C10: a create request whose body supplies a non-empty `phone_number` and
`currency` but has `balance` equal to `0` or omitted gets the error
`Missing fields` from `parseAccountRequest` and from `parseCardRequest`; both
handlers answer 400 and never call `AddCard`. -/
theorem zero_balance_is_rejected {σ : Type} (c : CardService σ) (rnd : Random)
    (fuel : Nat) (st : σ) (user : UUID) (b : Body) (phone currency : String)
    (_hphone : b.phone_number = some phone ∧ phone ≠ "")
    (_hcurrency : b.currency = some currency ∧ currency ≠ "")
    (h : b.balance = none ∨ b.balance = some 0) :
    (parseAccountRequest rnd ⟨user, some b⟩).2 = "Missing fields" ∧
    (parseCardRequest rnd ⟨user, some b⟩).2 = "Missing fields" ∧
    (∃ out, postAddCardHandler c rnd fuel st ⟨user, some b⟩ = some out ∧
      responseOf out.trace = ⟨400, "Missing fields\n"⟩ ∧ addCardCalls out.trace = []) ∧
    (∃ out, postAddLinkedCardHandler c rnd fuel st ⟨user, some b⟩ = some out ∧
      responseOf out.trace = ⟨400, "Missing fields\n"⟩ ∧ addCardCalls out.trace = []) := by
  have hb := decodeInto_balance_zero b h
  have h1 := parseAccountRequest_missing rnd user b (Or.inr hb)
  have h2 := parseCardRequest_missing rnd user b (Or.inr hb)
  exact ⟨h1, h2, ⟨_, postAddCardHandler_missing c rnd fuel st _ h1, rfl, rfl⟩,
    ⟨_, postAddLinkedCardHandler_missing c rnd fuel st _ h2, rfl, rfl⟩⟩

/-- C10, at the sample body with `"balance":0`. -/
theorem zero_balance_is_rejected_witness :
    (sample.bodyZeroBalance.phone_number = some "+10000000000" ∧ "+10000000000" ≠ "") ∧
    (sample.bodyZeroBalance.currency = some "USD" ∧ "USD" ≠ "") ∧
    (sample.bodyZeroBalance.balance = none ∨ sample.bodyZeroBalance.balance = some 0) ∧
    ((parseAccountRequest sample.random ⟨9, some sample.bodyZeroBalance⟩).2 = "Missing fields" ∧
    (parseCardRequest sample.random ⟨9, some sample.bodyZeroBalance⟩).2 = "Missing fields" ∧
    (∃ out, postAddCardHandler sample.service sample.random 5 []
        ⟨9, some sample.bodyZeroBalance⟩ = some out ∧
      responseOf out.trace = ⟨400, "Missing fields\n"⟩ ∧ addCardCalls out.trace = []) ∧
    (∃ out, postAddLinkedCardHandler sample.service sample.random 5 []
        ⟨9, some sample.bodyZeroBalance⟩ = some out ∧
      responseOf out.trace = ⟨400, "Missing fields\n"⟩ ∧ addCardCalls out.trace = [])) :=
  ⟨⟨rfl, by decide⟩, ⟨rfl, by decide⟩, Or.inr rfl,
    zero_balance_is_rejected sample.service sample.random 5 [] 9 sample.bodyZeroBalance
      "+10000000000" "USD" ⟨rfl, by decide⟩ ⟨rfl, by decide⟩ (Or.inr rfl)⟩

/-- C6: two bodies that decode and agree on `phone_number`, `currency` and
`balance`, whatever they say for `card_id`, `user_id`, `account_id`,
`card_number` and `account_number`, give the same result in
`parseAccountRequest` and in `parseCardRequest` under the same context
identity and the same generator outputs; the returned `ID`, `AccountID`,
`CardNumber` and `AccountNumber` are the generated values and `UserID` is the
context identity. -/
theorem generated_fields_ignore_caller (rnd : Random) (user : UUID) (b1 b2 : Body)
    (hphone : b1.phone_number = b2.phone_number) (hcurrency : b1.currency = b2.currency)
    (hbalance : b1.balance = b2.balance) :
    parseAccountRequest rnd ⟨user, some b1⟩ = parseAccountRequest rnd ⟨user, some b2⟩ ∧
    parseCardRequest rnd ⟨user, some b1⟩ = parseCardRequest rnd ⟨user, some b2⟩ ∧
    ((parseAccountRequest rnd ⟨user, some b1⟩).1.Card.ID = rnd.uuid1 ∧
      (parseAccountRequest rnd ⟨user, some b1⟩).1.Card.UserID = user ∧
      (parseAccountRequest rnd ⟨user, some b1⟩).1.Card.AccountID = rnd.uuid2 ∧
      (parseAccountRequest rnd ⟨user, some b1⟩).1.Card.CardNumber
        = generate.CardNumber rnd.intn ∧
      (parseAccountRequest rnd ⟨user, some b1⟩).1.AccountNumber
        = generate.AccountNumber rnd.draws) ∧
    ((parseCardRequest rnd ⟨user, some b1⟩).1.ID = rnd.uuid1 ∧
      (parseCardRequest rnd ⟨user, some b1⟩).1.UserID = user ∧
      (parseCardRequest rnd ⟨user, some b1⟩).1.AccountID = rnd.uuid2 ∧
      (parseCardRequest rnd ⟨user, some b1⟩).1.CardNumber = generate.CardNumber rnd.intn) := by
  refine ⟨?_, ?_, ?_, ?_⟩
  · simp only [parseAccountRequest, decodeInto, hphone, hcurrency, hbalance]
  · simp only [parseCardRequest, decodeInto, hphone, hcurrency, hbalance]
  · simp only [parseAccountRequest]
    split <;> simp
  · simp only [parseCardRequest]
    split <;> simp

/-- C6, at the sample body and a body that sets every generated field. -/
theorem generated_fields_ignore_caller_witness :
    sample.body.phone_number = sample.forgedBody.phone_number ∧
    sample.body.currency = sample.forgedBody.currency ∧
    sample.body.balance = sample.forgedBody.balance ∧
    (parseAccountRequest sample.random ⟨9, some sample.body⟩
      = parseAccountRequest sample.random ⟨9, some sample.forgedBody⟩ ∧
    parseCardRequest sample.random ⟨9, some sample.body⟩
      = parseCardRequest sample.random ⟨9, some sample.forgedBody⟩ ∧
    ((parseAccountRequest sample.random ⟨9, some sample.body⟩).1.Card.ID = sample.random.uuid1 ∧
      (parseAccountRequest sample.random ⟨9, some sample.body⟩).1.Card.UserID = 9 ∧
      (parseAccountRequest sample.random ⟨9, some sample.body⟩).1.Card.AccountID
        = sample.random.uuid2 ∧
      (parseAccountRequest sample.random ⟨9, some sample.body⟩).1.Card.CardNumber
        = generate.CardNumber sample.random.intn ∧
      (parseAccountRequest sample.random ⟨9, some sample.body⟩).1.AccountNumber
        = generate.AccountNumber sample.random.draws) ∧
    ((parseCardRequest sample.random ⟨9, some sample.body⟩).1.ID = sample.random.uuid1 ∧
      (parseCardRequest sample.random ⟨9, some sample.body⟩).1.UserID = 9 ∧
      (parseCardRequest sample.random ⟨9, some sample.body⟩).1.AccountID = sample.random.uuid2 ∧
      (parseCardRequest sample.random ⟨9, some sample.body⟩).1.CardNumber
        = generate.CardNumber sample.random.intn)) :=
  ⟨rfl, rfl, rfl,
    generated_fields_ignore_caller sample.random 9 sample.body sample.forgedBody rfl rfl rfl⟩

/-! ### The insertion loop -/

theorem storeAfter_succ {σ : Type} (db : Storage σ) (card : Card) (st : σ) (n : Nat) :
    storeAfter db card st (n + 1) = storeAfter db card (db.AddCard st card).2 n := by
  induction n with
  | zero => rfl
  | succ n ih => rw [storeAfter, ih]; rfl

theorem answerAt_succ {σ : Type} (db : Storage σ) (card : Card) (st : σ) (n : Nat) :
    answerAt db card st (n + 1) = answerAt db card (db.AddCard st card).2 n := by
  simp only [answerAt, storeAfter_succ]

/-- With `k` duplicate answers followed by a success, and fuel for `k + 1`
calls, the loop ends without a fatal error after exactly `k + 1` calls of
`AddCard`, and adds nothing else to the trace. -/
theorem insertLoop_retries {σ : Type} (c : CardService σ) (card : Card) :
    ∀ (k : Nat) (st : σ) (trace : List Event) (fuel : Nat),
      (∀ i, i < k → answerAt c.db card st i = some UniqueViolationCode) →
      answerAt c.db card st k = none → k + 1 ≤ fuel →
      insertLoop c card fuel st trace
        = some (none, storeAfter c.db card st (k + 1),
            trace ++ List.replicate (k + 1) (.addCard card)) := by
  intro k
  induction k with
  | zero =>
    intro st trace fuel _ hok hfuel
    obtain ⟨fuel, rfl⟩ : ∃ f, fuel = f + 1 := ⟨fuel - 1, by omega⟩
    simp only [answerAt, storeAfter] at hok
    rw [insertLoop]
    rcases hres : c.db.AddCard st card with ⟨ans, st'⟩
    rw [hres] at hok
    simp only at hok
    subst hok
    simp [storeAfter, hres]
  | succ k ih =>
    intro st trace fuel hdup hok hfuel
    obtain ⟨fuel, rfl⟩ : ∃ f, fuel = f + 1 := ⟨fuel - 1, by omega⟩
    have h0 := hdup 0 (by omega)
    simp only [answerAt, storeAfter] at h0
    rw [insertLoop]
    rcases hres : c.db.AddCard st card with ⟨ans, st'⟩
    rw [hres] at h0
    simp only at h0
    subst h0
    have hst : st' = (c.db.AddCard st card).2 := by rw [hres]
    have hdup' : ∀ i, i < k → answerAt c.db card st' i = some UniqueViolationCode := by
      intro i hi
      rw [hst, ← answerAt_succ]
      exact hdup (i + 1) (by omega)
    have hok' : answerAt c.db card st' k = none := by
      rw [hst, ← answerAt_succ]
      exact hok
    simp only [bne_self_eq_false, Bool.false_eq_true, if_false]
    rw [ih st' _ fuel hdup' hok' (by omega), storeAfter_succ _ _ _ (k + 1), ← hst]
    simp [List.replicate_succ]

theorem addCardCalls_replicate (card : Card) (rest : List Event) :
    ∀ n, addCardCalls (List.replicate n (Event.addCard card) ++ rest)
      = List.replicate n card ++ addCardCalls rest
  | 0 => by simp
  | n + 1 => by simp [List.replicate_succ, addCardCalls, addCardCalls_replicate card rest n]

theorem errorResponses_replicate (card : Card) (rest : List Event) :
    ∀ n, errorResponses (List.replicate n (Event.addCard card) ++ rest) = errorResponses rest
  | 0 => by simp
  | n + 1 => by simp [List.replicate_succ, errorResponses, errorResponses_replicate card rest n]

theorem responseOf_replicate (card : Card) (rest : List Event) :
    ∀ n, responseOf (List.replicate n (Event.addCard card) ++ rest) = responseOf rest
  | 0 => by simp
  | n + 1 => by simp [List.replicate_succ, responseOf, responseOf_replicate card rest n]

/-- C3: for every `k` and every valid create request, if `AddCard` answers the
first `k` attempts with the uniqueness-violation error and the attempt
`k + 1` with success, and the transaction service answers 201, then with
fuel for `k + 1` attempts `postAddCardHandler` returns, having called
`AddCard` exactly `k + 1` times and the transaction service once, having
written no error response, and responds 201 with an empty body. -/
theorem duplicates_are_retried_silently {σ : Type} (c : CardService σ) (rnd : Random)
    (st : σ) (r : Request) (k fuel : Nat)
    (hvalid : (parseAccountRequest rnd r).2 = "")
    (hdup : ∀ i, i < k →
      answerAt c.db (parseAccountRequest rnd r).1.Card st i = some UniqueViolationCode)
    (hok : answerAt c.db (parseAccountRequest rnd r).1.Card st k = none)
    (hledger : c.ledger (.createAccount (parseAccountRequest rnd r).1) = .status 201)
    (hfuel : k + 1 ≤ fuel) :
    ∃ out, postAddCardHandler c rnd fuel st r = some out ∧
      out.trace = List.replicate (k + 1) (.addCard (parseAccountRequest rnd r).1.Card)
        ++ [.ledger (.createAccount (parseAccountRequest rnd r).1), .writeHeader 201] ∧
      (addCardCalls out.trace).length = k + 1 ∧
      errorResponses out.trace = [] ∧
      responseOf out.trace = ⟨201, ""⟩ := by
  have hloop := insertLoop_retries c (parseAccountRequest rnd r).1.Card k st [] fuel hdup hok hfuel
  refine ⟨⟨storeAfter c.db (parseAccountRequest rnd r).1.Card st (k + 1),
    List.replicate (k + 1) (.addCard (parseAccountRequest rnd r).1.Card)
      ++ [.ledger (.createAccount (parseAccountRequest rnd r).1), .writeHeader 201]⟩,
    ?_, rfl, ?_, ?_, ?_⟩
  · simp [postAddCardHandler, hvalid, hloop, createAccount, callLedger, hledger]
  · simp [addCardCalls_replicate, addCardCalls]
  · simp [errorResponses_replicate, errorResponses]
  · simp [responseOf_replicate, responseOf]

/-- C3, at two duplicates followed by a success on the scripted store. -/
theorem duplicates_are_retried_silently_witness :
    (parseAccountRequest sample.random ⟨9, some sample.body⟩).2 = "" ∧
    (∀ i, i < 2 →
      answerAt sample.service.db (parseAccountRequest sample.random ⟨9, some sample.body⟩).1.Card
        [some "23505", some "23505", none] i = some UniqueViolationCode) ∧
    answerAt sample.service.db (parseAccountRequest sample.random ⟨9, some sample.body⟩).1.Card
        [some "23505", some "23505", none] 2 = none ∧
    sample.service.ledger
      (.createAccount (parseAccountRequest sample.random ⟨9, some sample.body⟩).1) = .status 201 ∧
    2 + 1 ≤ 3 ∧
    (∃ out, postAddCardHandler sample.service sample.random 3
        [some "23505", some "23505", none] ⟨9, some sample.body⟩ = some out ∧
      out.trace = List.replicate (2 + 1)
          (.addCard (parseAccountRequest sample.random ⟨9, some sample.body⟩).1.Card)
        ++ [.ledger (.createAccount (parseAccountRequest sample.random ⟨9, some sample.body⟩).1),
            .writeHeader 201] ∧
      (addCardCalls out.trace).length = 2 + 1 ∧
      errorResponses out.trace = [] ∧
      responseOf out.trace = ⟨201, ""⟩) :=
  ⟨by decide, by decide, by decide, rfl, by decide,
    duplicates_are_retried_silently sample.service sample.random
      [some "23505", some "23505", none] ⟨9, some sample.body⟩ 2 3
      (by decide) (by decide) (by decide) rfl (by decide)⟩

/-! ### The encrypted store -/

theorem insert_message_ne_code (message : String) :
    "failed to insert card: " ++ message ≠ storage.UniqueViolationCode := by
  intro h
  have h1 : ("failed to insert card: " ++ message).data.head? = some 'f' := by
    rw [String.data_append]
    rfl
  rw [h] at h1
  exact absurd h1 (by decide)

theorem insertError_eq_code_iff (e : DbError) :
    insertError e = storage.UniqueViolationCode ↔ e.isUniqueViolation = true := by
  unfold insertError
  by_cases h : e.isUniqueViolation = true
  · simp [h]
  · simp [h, insert_message_ne_code]

theorem isUniqueViolation_iff (e : DbError) :
    e.isUniqueViolation = true ↔ ∃ message, e = .pgError "23505" message := by
  cases e with
  | pgError code message =>
    simp [DbError.isUniqueViolation, storage.UniqueViolationCode]
  | other message => simp [DbError.isUniqueViolation]

theorem AddCard_rejected {β : Type} (p : PostgresCards β) (db : Db β) (card : Card) (e : DbError)
    (h : p.reject db (rowOf p db card) = some e) :
    storage.AddCard p db card = (some (insertError e), { db with now := db.now + 1 }) := by
  simp [storage.AddCard, Exec, h]

theorem AddCard_accepted {β : Type} (p : PostgresCards β) (db : Db β) (card : Card)
    (h : p.reject db (rowOf p db card) = none) :
    storage.AddCard p db card
      = (none, { rows := db.rows ++ [rowOf p db card], now := db.now + 1 }) := by
  simp [storage.AddCard, Exec, h]

/-- C8: when the `INSERT` ends in the database error `e`, `AddCard` returns the
error with message `23505` if and only if `e` is a `PgError` with code
`23505`; for every other `e` it returns an error whose message is
`failed to insert card: ` followed by the message of `e`, which is never
`23505`; so the test of the handlers' loop goes on to the next attempt
exactly on a uniqueness violation and ends the request with the fatal 500
on every other storage failure. -/
theorem insert_error_is_classified {β : Type} (p : PostgresCards β)
    (ledger : LedgerCall → LedgerOutcome) (db : Db β) (card : Card) (e : DbError)
    (fuel : Nat) (trace : List Event)
    (h : p.reject db (rowOf p db card) = some e) :
    ((storage.AddCard p db card).1 = some "23505" ↔ ∃ message, e = .pgError "23505" message) ∧
    ((¬ ∃ message, e = .pgError "23505" message) →
      (storage.AddCard p db card).1 = some ("failed to insert card: " ++ e.Error) ∧
      "failed to insert card: " ++ e.Error ≠ "23505") ∧
    insertLoop ⟨p.toStorage, ledger⟩ card (fuel + 1) db trace =
      (if e.isUniqueViolation then
        insertLoop ⟨p.toStorage, ledger⟩ card fuel (storage.AddCard p db card).2
          (trace ++ [.addCard card])
      else
        some (some ("failed to insert card: " ++ e.Error), (storage.AddCard p db card).2,
          trace ++ [.addCard card, .log "Failed to add card",
            .httpError "Failed to add card" 500])) := by
  have hadd := AddCard_rejected p db card e h
  have hiff := insertError_eq_code_iff e
  refine ⟨?_, ?_, ?_⟩
  · rw [hadd, ← isUniqueViolation_iff, ← hiff]
    simp [storage.UniqueViolationCode]
  · intro hne
    rw [← isUniqueViolation_iff] at hne
    have hu : e.isUniqueViolation = false := by simpa using hne
    rw [hadd]
    exact ⟨by simp [insertError, hu], insert_message_ne_code _⟩
  · rw [insertLoop]
    simp only [PostgresCards.toStorage, hadd]
    by_cases hu : e.isUniqueViolation = true
    · simp [hu, insertError, UniqueViolationCode, storage.UniqueViolationCode]
    · have hm : insertError e = "failed to insert card: " ++ e.Error := by
        simp [insertError, hu]
      have hmne := insert_message_ne_code e.Error
      simp only [hu, hm, if_false, Bool.false_eq_true]
      simp only [UniqueViolationCode, storage.UniqueViolationCode] at hmne ⊢
      simp [hmne]

/-- C8, at the insertion of the sample card into a table that holds it. -/
theorem insert_error_is_classified_witness :
    sample.postgres.reject sample.dbWithCard (rowOf sample.postgres sample.dbWithCard sample.card)
      = some (.pgError "23505"
          "ERROR: duplicate key value violates unique constraint (SQLSTATE 23505)") ∧
    (((storage.AddCard sample.postgres sample.dbWithCard sample.card).1 = some "23505" ↔
      ∃ message, DbError.pgError "23505"
          "ERROR: duplicate key value violates unique constraint (SQLSTATE 23505)"
        = .pgError "23505" message) ∧
    ((¬ ∃ message, DbError.pgError "23505"
          "ERROR: duplicate key value violates unique constraint (SQLSTATE 23505)"
        = .pgError "23505" message) →
      (storage.AddCard sample.postgres sample.dbWithCard sample.card).1
        = some ("failed to insert card: " ++ (DbError.pgError "23505"
          "ERROR: duplicate key value violates unique constraint (SQLSTATE 23505)").Error) ∧
      "failed to insert card: " ++ (DbError.pgError "23505"
          "ERROR: duplicate key value violates unique constraint (SQLSTATE 23505)").Error
        ≠ "23505") ∧
    insertLoop ⟨sample.postgres.toStorage, fun _ => .status 201⟩ sample.card (1 + 1)
        sample.dbWithCard [] =
      (if (DbError.pgError "23505"
          "ERROR: duplicate key value violates unique constraint (SQLSTATE 23505)").isUniqueViolation
      then
        insertLoop ⟨sample.postgres.toStorage, fun _ => .status 201⟩ sample.card 1
          (storage.AddCard sample.postgres sample.dbWithCard sample.card).2
          ([] ++ [.addCard sample.card])
      else
        some (some ("failed to insert card: " ++ (DbError.pgError "23505"
            "ERROR: duplicate key value violates unique constraint (SQLSTATE 23505)").Error),
          (storage.AddCard sample.postgres sample.dbWithCard sample.card).2,
          [] ++ [.addCard sample.card, .log "Failed to add card",
            .httpError "Failed to add card" 500]))) :=
  ⟨by decide,
    insert_error_is_classified sample.postgres (fun _ => .status 201) sample.dbWithCard
      sample.card _ 1 [] (by decide)⟩

theorem selectRows_single {β : Type} (db : Db β) (row : Row β)
    (hnone : ∀ r ∈ db.rows, r.user_id ≠ row.user_id) :
    selectRows ⟨db.rows ++ [row], db.now + 1⟩ row.user_id = [row] := by
  have hf : db.rows.filter (fun r => r.user_id == row.user_id) = [] := by
    rw [List.filter_eq_nil_iff]
    intro r hr
    simpa using hnone r hr
  simp [selectRows, List.filter_append, hf]

theorem mem_selectRows {β : Type} (db : Db β) (row : Row β) (h : row ∈ db.rows) :
    row ∈ selectRows db row.user_id := by
  unfold selectRows
  rw [(List.perm_insertionSort _ _).mem_iff, List.mem_filter]
  exact ⟨h, by simp⟩

theorem scanRow_rowOf {β : Type} (p : PostgresCards β) (db : Db β) (card : Card)
    (hround : ∀ s, p.Decrypt (p.Encrypt s p.key) p.key = s) :
    scanRow p (rowOf p db card) = { card with Currency := "", Balance := 0 } := by
  simp [scanRow, rowOf, hround, Card.zero]

/-- C7: with the table a list of rows and `Decrypt (Encrypt s key) key = s`,
after `AddCard c` succeeds on a store that holds no other card of
`c.UserID`, and the read does not fail, `GetAllCards c.UserID` returns
exactly one card: `card_id`, `account_id`, `user_id`, `card_number` and
`phone_number` are those of `c` (the two encrypted columns in plaintext),
`currency` is empty and `balance` is `0`. -/
theorem AddCard_then_GetAllCards {β : Type} (p : PostgresCards β) (db db' : Db β) (c : Card)
    (hround : ∀ s, p.Decrypt (p.Encrypt s p.key) p.key = s)
    (hadd : storage.AddCard p db c = (none, db'))
    (hnone : ∀ r ∈ db.rows, r.user_id ≠ c.UserID)
    (hread : p.readFault db' = none) :
    storage.GetAllCards p db' c.UserID
      = .ok [{ ID := c.ID, UserID := c.UserID, AccountID := c.AccountID,
               CardNumber := c.CardNumber, PhoneNumber := c.PhoneNumber,
               Currency := "", Balance := 0 }] := by
  cases hr : p.reject db (rowOf p db c) with
  | some e => rw [AddCard_rejected p db c e hr] at hadd; simp at hadd
  | none =>
    rw [AddCard_accepted p db c hr] at hadd
    simp only [Prod.mk.injEq, true_and] at hadd
    subst hadd
    have hsel := selectRows_single db (rowOf p db c) hnone
    simp only [storage.GetAllCards, hread]
    have huser : (rowOf p db c).user_id = c.UserID := rfl
    rw [huser] at hsel
    rw [hsel, List.map_singleton, scanRow_rowOf p db c hround]

/-- C7, at the sample card and the empty table. -/
theorem AddCard_then_GetAllCards_witness :
    (∀ s, sample.postgres.Decrypt (sample.postgres.Encrypt s sample.postgres.key)
      sample.postgres.key = s) ∧
    storage.AddCard sample.postgres sample.emptyDb sample.card = (none, sample.dbWithCard) ∧
    (∀ r ∈ sample.emptyDb.rows, r.user_id ≠ sample.card.UserID) ∧
    sample.postgres.readFault sample.dbWithCard = none ∧
    storage.GetAllCards sample.postgres sample.dbWithCard sample.card.UserID
      = .ok [{ ID := sample.card.ID, UserID := sample.card.UserID,
               AccountID := sample.card.AccountID, CardNumber := sample.card.CardNumber,
               PhoneNumber := sample.card.PhoneNumber, Currency := "", Balance := 0 }] :=
  ⟨fun s => by simp [sample.postgres], by decide, by simp [sample.emptyDb], rfl,
    AddCard_then_GetAllCards sample.postgres sample.emptyDb sample.dbWithCard sample.card
      (fun s => by simp [sample.postgres]) (by decide) (by simp [sample.emptyDb]) rfl⟩

/-! ### The ledger call after the insertion -/

theorem insertLoop_success_row {β : Type} (p : PostgresCards β)
    (ledger : LedgerCall → LedgerOutcome) (card : Card) :
    ∀ (fuel : Nat) (db : Db β) (trace : List Event) (db' : Db β) (trace' : List Event),
      insertLoop ⟨p.toStorage, ledger⟩ card fuel db trace = some (none, db', trace') →
      ∃ db0, rowOf p db0 card ∈ db'.rows := by
  intro fuel
  induction fuel with
  | zero => intro db trace db' trace' h; simp [insertLoop] at h
  | succ fuel ih =>
    intro db trace db' trace' h
    rw [insertLoop] at h
    cases hr : p.reject db (rowOf p db card) with
    | none =>
      simp only [PostgresCards.toStorage, AddCard_accepted p db card hr, Option.some.injEq,
        Prod.mk.injEq, true_and] at h
      refine ⟨db, ?_⟩
      rw [← h.1]
      simp
    | some e =>
      simp only [PostgresCards.toStorage, AddCard_rejected p db card e hr] at h
      split at h
      · simp at h
      · exact ih _ _ _ _ h

theorem callLedger_failure {σ : Type} (c : CardService σ) (call : LedgerCall)
    (prepare failed : String) (h : c.ledger call ≠ .status 201) :
    ∃ message events, callLedger c call prepare failed = (some message, events) ∧
      (errorResponses events = [] ∧ ∀ code, Event.writeHeader code ∉ events) := by
  unfold callLedger
  cases hl : c.ledger call with
  | requestError message => exact ⟨_, _, rfl, rfl, by simp⟩
  | transportError message => exact ⟨_, _, rfl, rfl, by simp⟩
  | status code =>
    have hcode : code ≠ 201 := by
      intro hc
      exact h (by rw [hl, hc])
    simp only [bne_iff_ne, ne_eq, hcode, not_false_eq_true, if_true]
    exact ⟨_, _, rfl, rfl, by simp⟩

theorem responseOf_append_of_silent (front rest : List Event)
    (h : errorResponses front = [] ∧ ∀ code, Event.writeHeader code ∉ front) :
    responseOf (front ++ rest) = responseOf rest := by
  induction front with
  | nil => rfl
  | cons ev front ih =>
    have hrest : errorResponses front = [] ∧ ∀ code, Event.writeHeader code ∉ front := by
      refine ⟨?_, fun code hm => h.2 code (List.mem_cons_of_mem _ hm)⟩
      cases ev <;> simp_all [errorResponses]
    cases ev with
    | httpError message code => simp [errorResponses] at h
    | writeHeader code => exact absurd (List.mem_cons_self _ _) (h.2 code)
    | addCard card => simpa [responseOf] using ih hrest
    | ledger call => simpa [responseOf] using ih hrest
    | log message => simpa [responseOf] using ih hrest

theorem insertLoop_success_silent {σ : Type} (c : CardService σ) (card : Card) :
    ∀ (fuel : Nat) (st : σ) (trace : List Event) (st' : σ) (trace' : List Event),
      insertLoop c card fuel st trace = some (none, st', trace') →
      (errorResponses trace = [] ∧ ∀ code, Event.writeHeader code ∉ trace) →
      (errorResponses trace' = [] ∧ ∀ code, Event.writeHeader code ∉ trace') := by
  intro fuel
  induction fuel with
  | zero => intro st trace st' trace' h; simp [insertLoop] at h
  | succ fuel ih =>
    intro st trace st' trace' h hs
    rw [insertLoop] at h
    have hstep : errorResponses (trace ++ [Event.addCard card]) = [] ∧
        ∀ code, Event.writeHeader code ∉ trace ++ [Event.addCard card] := by
      obtain ⟨h1, h2⟩ := hs
      constructor
      · clear h ih h2
        induction trace with
        | nil => rfl
        | cons ev trace iht => cases ev <;> simp_all [errorResponses]
      · intro code hm
        rcases List.mem_append.mp hm with hm | hm
        · exact h2 code hm
        · simp at hm
    rcases hres : c.db.AddCard st card with ⟨ans, st₁⟩
    rw [hres] at h
    cases ans with
    | none =>
      simp only [Option.some.injEq, Prod.mk.injEq, true_and] at h
      rw [← h.2]
      exact hstep
    | some err =>
      simp only at h
      split at h
      · simp at h
      · exact ih _ _ _ _ h hstep

/-- C5: for every valid create request whose insertion succeeds on the
encrypted store, if the call to the transaction service ends in an error or
in any status other than 201, `postAddCardHandler` responds 500 and leaves
the store as the insertion left it, the row of the card included; so, with
`Decrypt (Encrypt s key) key = s` and a read that does not fail, a following
`GetAllCards` for the user of the request returns a list that contains the
card (without `currency` and `balance`, which are not stored). -/
theorem ledger_failure_keeps_card {β : Type} (p : PostgresCards β)
    (ledger : LedgerCall → LedgerOutcome) (rnd : Random) (fuel : Nat) (db db' : Db β)
    (r : Request) (trace : List Event)
    (hvalid : (parseAccountRequest rnd r).2 = "")
    (hinsert : insertLoop ⟨p.toStorage, ledger⟩ (parseAccountRequest rnd r).1.Card fuel db []
      = some (none, db', trace))
    (hledger : ledger (.createAccount (parseAccountRequest rnd r).1) ≠ .status 201) :
    ∃ out, postAddCardHandler ⟨p.toStorage, ledger⟩ rnd fuel db r = some out ∧
      responseOf out.trace = ⟨500, "Failed to create account\n"⟩ ∧
      out.store = db' ∧
      (∃ db0, rowOf p db0 (parseAccountRequest rnd r).1.Card ∈ out.store.rows) ∧
      ((∀ s, p.Decrypt (p.Encrypt s p.key) p.key = s) → p.readFault out.store = none →
        ∃ cards, storage.GetAllCards p out.store r.user_id = .ok cards ∧
          { (parseAccountRequest rnd r).1.Card with Currency := "", Balance := 0 } ∈ cards) := by
  obtain ⟨message, events, hcall, hev⟩ :=
    callLedger_failure ⟨p.toStorage, ledger⟩ (.createAccount (parseAccountRequest rnd r).1)
      "Failed to prepare account creation HTTP request"
      "Failed to create account in transaction service" hledger
  obtain ⟨db0, hrow⟩ := insertLoop_success_row p ledger _ fuel db [] db' trace hinsert
  have hsilent := insertLoop_success_silent _ _ fuel db [] db' trace hinsert ⟨rfl, by simp⟩
  have huser : (parseAccountRequest rnd r).1.Card.UserID = r.user_id := by
    simp only [parseAccountRequest]
    split
    · simp [parseAccountRequest, *] at hvalid
    · split <;> rfl
  refine ⟨⟨db', trace ++ events ++ [.httpError "Failed to create account" 500]⟩, ?_, ?_, rfl,
    ⟨db0, hrow⟩, ?_⟩
  · simp [postAddCardHandler, hvalid, hinsert, createAccount, hcall]
  · rw [List.append_assoc, responseOf_append_of_silent _ _ hsilent,
      responseOf_append_of_silent _ _ hev]
    rfl
  · intro hround hread
    refine ⟨(selectRows db' r.user_id).map (scanRow p),
      by simp only [storage.GetAllCards, hread], ?_⟩
    rw [← scanRow_rowOf p db0 _ hround]
    have hmem := mem_selectRows db' _ hrow
    have hu : (rowOf p db0 (parseAccountRequest rnd r).1.Card).user_id = r.user_id := huser
    rw [hu] at hmem
    exact List.mem_map_of_mem _ hmem

/-- C5, at the sample request on the empty table with a transaction service
that answers 503: the response is 500 and `GetAllCards` still returns the
card. -/
theorem ledger_failure_keeps_card_witness :
    (parseAccountRequest sample.random ⟨9, some sample.body⟩).2 = "" ∧
    insertLoop ⟨sample.postgres.toStorage, fun _ => .status 503⟩
        (parseAccountRequest sample.random ⟨9, some sample.body⟩).1.Card 1 sample.emptyDb []
      = some (none, sample.dbWithCard, [.addCard sample.card]) ∧
    (fun _ => LedgerOutcome.status 503)
        (LedgerCall.createAccount (parseAccountRequest sample.random ⟨9, some sample.body⟩).1)
      ≠ .status 201 ∧
    (∃ out, postAddCardHandler ⟨sample.postgres.toStorage, fun _ => .status 503⟩ sample.random 1
        sample.emptyDb ⟨9, some sample.body⟩ = some out ∧
      responseOf out.trace = ⟨500, "Failed to create account\n"⟩ ∧
      out.store = sample.dbWithCard ∧
      (∃ db0, rowOf sample.postgres db0
        (parseAccountRequest sample.random ⟨9, some sample.body⟩).1.Card ∈ out.store.rows) ∧
      ∃ cards, storage.GetAllCards sample.postgres out.store (9 : UUID) = .ok cards ∧
        { (parseAccountRequest sample.random ⟨9, some sample.body⟩).1.Card with
            Currency := "", Balance := 0 } ∈ cards) :=
  ⟨by decide, by decide, by decide,
    match ledger_failure_keeps_card sample.postgres (fun _ => .status 503) sample.random 1
      sample.emptyDb sample.dbWithCard ⟨9, some sample.body⟩ [.addCard sample.card]
      (by decide) (by decide) (by decide) with
    | ⟨out, hrun, hresp, hstore, hrow, hget⟩ =>
      ⟨out, hrun, hresp, hstore, hrow, hget (fun s => by simp [sample.postgres]) rfl⟩⟩

/-! ### What the retry submits -/

theorem addCardCalls_append (front rest : List Event) :
    addCardCalls (front ++ rest) = addCardCalls front ++ addCardCalls rest := by
  induction front with
  | nil => rfl
  | cons ev front ih => cases ev <;> simp [addCardCalls, ih]

/-- Every call of `AddCard` the loop makes carries the card the loop was
entered with. -/
theorem insertLoop_calls_same_card {σ : Type} (c : CardService σ) (card : Card) :
    ∀ (fuel : Nat) (st : σ) (trace : List Event) (res : Option String × σ × List Event),
      insertLoop c card fuel st trace = some res →
      ∃ n, addCardCalls res.2.2 = addCardCalls trace ++ List.replicate (n + 1) card := by
  intro fuel
  induction fuel with
  | zero => intro st trace res h; simp [insertLoop] at h
  | succ fuel ih =>
    intro st trace res h
    rw [insertLoop] at h
    rcases hres : c.db.AddCard st card with ⟨ans, st₁⟩
    rw [hres] at h
    cases ans with
    | none =>
      simp only [Option.some.injEq] at h
      exact ⟨0, by rw [← h]; simp [addCardCalls_append, addCardCalls]⟩
    | some err =>
      simp only at h
      split at h
      · simp only [Option.some.injEq] at h
        exact ⟨0, by rw [← h]; simp [addCardCalls_append, addCardCalls]⟩
      · obtain ⟨n, hn⟩ := ih _ _ _ h
        refine ⟨n + 1, ?_⟩
        rw [hn, addCardCalls_append]
        simp [addCardCalls, List.replicate_succ]

/-- On the sample store, whose table has `card_id` as primary key, the loop
entered with a card whose `card_id` is already in the table is rejected at
every attempt: no amount of fuel lets it end. -/
theorem insertLoop_duplicate_never_ends (ledger : LedgerCall → LedgerOutcome) (card : Card) :
    ∀ (fuel : Nat) (db : Db String) (trace : List Event),
      db.rows.any (fun r => r.card_id == card.ID) = true →
      insertLoop ⟨sample.postgres.toStorage, ledger⟩ card fuel db trace = none := by
  intro fuel
  induction fuel with
  | zero => intro db trace _; rfl
  | succ fuel ih =>
    intro db trace hdup
    have hrej : sample.postgres.reject db (rowOf sample.postgres db card)
        = some (.pgError "23505"
          "ERROR: duplicate key value violates unique constraint (SQLSTATE 23505)") := by
      show (if db.rows.any (fun r => r.card_id == card.ID) = true then _ else none) = _
      rw [if_pos hdup]
    rw [insertLoop]
    simp only [PostgresCards.toStorage, AddCard_rejected sample.postgres db card _ hrej]
    have hmsg : insertError (.pgError "23505"
        "ERROR: duplicate key value violates unique constraint (SQLSTATE 23505)")
          = UniqueViolationCode := by decide
    simp only [hmsg, bne_self_eq_false, Bool.false_eq_true, if_false]
    exact ih _ _ hdup

/-- C2 (the code at the failing input): with a store that answers the first
`AddCard` with the uniqueness violation and the second with success, both
create handlers pass to the second attempt the very card the first attempt
was rejected with; no identifier is generated anew. -/
theorem retry_resubmits_rejected_card :
    (postAddCardHandler sample.service sample.random 2 [some "23505", none]
        ⟨9, some sample.body⟩).map (fun out => addCardCalls out.trace)
      = some [sample.card, sample.card] ∧
    (postAddLinkedCardHandler sample.service sample.random 2 [some "23505", none]
        ⟨9, some sample.body⟩).map (fun out => addCardCalls out.trace)
      = some [sample.card, sample.card] := by
  decide

end http

end CardManager
